import Mathlib

/-!
Verification of Tilck's FAT32 ramdisk mmap layer (`kernel/fs/fat32_mm.c`).

The file gives a shallow embedding of `fat_ramdisk_prepare_for_mmap` and
`fat_mmap`, together with explicit models of the external collaborators they
consume (the Page Mapper and the FAT layout walker), and proves or refutes
the specification's claims about them.

Modelling conventions:
- machine integers (`size_t`, `ulong`, `u32`) are `Nat`; no arithmetic here
  can overflow 64 bits on the inputs considered, and C unsigned subtraction
  only occurs where the source has already established the minuend is the
  larger operand (`VERIFY(rd_size >= used)`, and the loop arithmetic shown
  in the lemmas below), so truncated `Nat` subtraction coincides with it;
- the cluster chain of a file (obtained in C via `fat_get_first_cluster`
  followed by repeated `fat_read_fat_entry` until
  `fat_is_end_of_clusterchain`) is materialized as a `List Nat`; the C
  do/while body runs once per chain element, which is exactly structural
  recursion on that list;
- the Page Mapper (`map_pages` / `unmap_pages_permissive`, external to the
  repository slice) is modelled from the spec: `map_pages` maps pages one by
  one and may fall short only when its pool of free frames is exhausted,
  reporting how many pages were actually mapped (the mapped ones stay
  mapped); `unmap_pages_permissive` removes every mapping in the given
  virtual range, tolerating absent pages;
- `ASSERT` is compiled out in release builds; the embedding records whether
  each `ASSERT((off % cluster_size) == 0)` held in the `assertsOk` flag of
  the result instead of halting;
- every `map_pages` invocation is recorded in a trace (`MapCall`), carrying
  the chain index and cluster number it was issued for, so that claims about
  which clusters reach the Page Mapper can be stated directly;
- `KERNEL_VA_TO_PA` is a fixed linear bijection between kernel virtual and
  physical addresses; the model passes the kernel virtual address of the
  cluster data where C passes its image under that bijection, which no
  claim can distinguish.
-/

namespace Fat32MM

def PAGE_SIZE : Nat := 4096

def PAGE_SHIFT : Nat := 12

def ENODEV : Int := 19

def EACCES : Int := 13

def ENOMEM : Int := 12

def VFS_MM_DONT_MMAP : Nat := 1

/-- `struct fat_fs_device_data`, restricted to the fields `fat_mmap` reads:
the mmap capability flag, the cluster size in bytes, and (standing for the
`hdr` pointer) the kernel virtual address of the first data cluster. -/
structure fat_fs_device_data where
  mmap_support : Bool
  cluster_size : Nat
  data_region : Nat
deriving Repr, DecidableEq

/-- `fat_get_pointer_to_cluster_data(hdr, clu)`: address of the raw data of
cluster `clu` inside the in-memory image (FAT data clusters start at
number 2). -/
def fat_get_pointer_to_cluster_data (d : fat_fs_device_data) (clu : Nat) : Nat :=
  d.data_region + (clu - 2) * d.cluster_size

/-- The fields of `struct fat_entry` that `fat_mmap` reads: the directory
flag, and the file's cluster chain (first cluster per
`fat_get_first_cluster`, successors per `fat_read_fat_entry` until the
end-of-clusterchain sentinel; bad clusters never occur per the `ASSERT` at
line 178). -/
structure fat_entry where
  directory : Bool
  cluster_chain : List Nat
deriving Repr, DecidableEq

/-- `struct fatfs_handle`, restricted to the entry `fh->e`. -/
structure fatfs_handle where
  e : fat_entry
deriving Repr, DecidableEq

/-- `struct user_mapping`: handle, target virtual address, length in bytes,
byte offset into the file. -/
structure user_mapping where
  h : fatfs_handle
  vaddr : Nat
  len : Nat
  off : Nat
deriving Repr, DecidableEq

/-- State of the Page Mapper collaborator: a pool of still-available
pageframes (the resource whose exhaustion makes `map_pages` fall short) and
the list of established mappings, as (virtual page address, physical
address) pairs. -/
structure PageMapperState where
  pool : Nat
  mapped : List (Nat × Nat)
deriving Repr, DecidableEq

/-- Modelled from the spec (the Page Mapper is outside the repository
slice): `map-pages(address space, virtual address, physical address, page
count, flags) → pages actually mapped (may fall short only under resource
exhaustion)`.  Maps `min pg_count pool` consecutive pages starting at
`vaddr ↦ pa` and returns how many were mapped; the mapped pages stay
mapped. -/
def map_pages (pm : PageMapperState) (vaddr pa pg_count : Nat) :
    Nat × PageMapperState :=
  let k := min pg_count pm.pool
  (k, ⟨pm.pool - k,
       pm.mapped ++
         (List.range k).map (fun i => (vaddr + i * PAGE_SIZE, pa + i * PAGE_SIZE))⟩)

/-- Modelled from the spec: `unmap-pages(address space, virtual address,
page count, permissive) → releases mappings, tolerating partial/absent
mappings when permissive`.  Removes every mapping whose virtual address
falls in `[vaddr, vaddr + pg_count * PAGE_SIZE)`. -/
def unmap_pages_permissive (pm : PageMapperState) (vaddr pg_count : Nat) :
    PageMapperState :=
  ⟨pm.pool,
   pm.mapped.filter
     (fun p => decide (p.1 < vaddr) || decide (vaddr + pg_count * PAGE_SIZE ≤ p.1))⟩

/-- One recorded `map_pages` invocation issued by `fat_mmap`: the position
`idx` of the cluster in the file's chain, the cluster number, the virtual
address, the data pointer, the requested page count and the count actually
mapped. -/
structure MapCall where
  idx : Nat
  clu : Nat
  vaddr : Nat
  data : Nat
  pg_count : Nat
  mapped_cnt : Nat
deriving Repr, DecidableEq

/-- Observable outcome of a `fat_mmap` call: return value, final Page
Mapper state, the trace of `map_pages` invocations, the chain indices taken
by the skip branch, whether every `ASSERT((off % cluster_size) == 0)` held,
and the final `tot_mapped_cnt`. -/
structure MmapResult where
  ret : Int
  pm : PageMapperState
  calls : List MapCall
  skipped : List Nat
  assertsOk : Bool
  tot_mapped_cnt : Nat
deriving Repr, DecidableEq

/-- The mutable locals of `fat_mmap`'s do/while loop, plus the recorded
traces: chain index of the current cluster, `vaddr`, `off`,
`tot_mapped_cnt`, the Page Mapper state, and the accumulated traces. -/
structure LoopState where
  i : Nat
  vaddr : Nat
  off : Nat
  tot : Nat
  pm : PageMapperState
  calls : List MapCall
  skipped : List Nat
  assertsOk : Bool
deriving Repr, DecidableEq

/-- One execution of the body of `fat_mmap`'s do/while loop (lines
117-180) for the cluster `clu`: either the loop continues with an updated
state (`Sum.inl`), or the function returns (`Sum.inr`), by the
`off >= off_end` break (success) or the `mapped_cnt != pg_count` shortfall
(`-ENOMEM` after the permissive rollback of the first `tot` pages). -/
def fat_mmap_step (d : fat_fs_device_data) (um_vaddr off_begin off_end clu : Nat)
    (st : LoopState) : LoopState ⊕ MmapResult :=
  let clu_end_off := st.off + d.cluster_size
  if off_end ≤ st.off then
    -- "Are we past the end of the mapped region?" → break, return 0
    Sum.inr ⟨0, st.pm, st.calls, st.skipped, st.assertsOk, st.tot⟩
  else if off_begin < clu_end_off then
    -- "The cluster ends *after* the beginning of our region"
    let data0 := fat_get_pointer_to_cluster_data d clu
    -- C:  if (off < off_begin) { off = off_begin; data += off_begin - off; }
    -- the increment reads `off` after the assignment, hence adds 0
    let off1 := if st.off < off_begin then off_begin else st.off
    let data1 := if st.off < off_begin then data0 + (off_begin - off1) else data0
    let pg_count := (min clu_end_off off_end - off1) >>> PAGE_SHIFT
    let r := map_pages st.pm st.vaddr data1 pg_count
    let calls1 := st.calls ++ [⟨st.i, clu, st.vaddr, data1, pg_count, r.1⟩]
    if r.1 ≠ pg_count then
      Sum.inr ⟨-ENOMEM, unmap_pages_permissive r.2 um_vaddr st.tot,
               calls1, st.skipped, st.assertsOk, st.tot⟩
    else
      Sum.inl ⟨st.i + 1,
               st.vaddr + (pg_count <<< PAGE_SHIFT),
               off1 + (pg_count <<< PAGE_SHIFT),
               st.tot + r.1, r.2, calls1, st.skipped,
               st.assertsOk &&
                 ((off1 + (pg_count <<< PAGE_SHIFT)) % d.cluster_size == 0)⟩
  else
    -- "We skipped the whole cluster"
    Sum.inl ⟨st.i + 1, st.vaddr, st.off + d.cluster_size, st.tot, st.pm,
             st.calls, st.skipped ++ [st.i], st.assertsOk⟩

/-- The do/while loop of `fat_mmap`, walking the file's cluster chain.
Reaching the end of the chain is success (return 0). -/
def fat_mmap_loop (d : fat_fs_device_data) (um_vaddr off_begin off_end : Nat) :
    List Nat → LoopState → MmapResult
  | [], st => ⟨0, st.pm, st.calls, st.skipped, st.assertsOk, st.tot⟩
  | clu :: rest, st =>
    match fat_mmap_step d um_vaddr off_begin off_end clu st with
    | Sum.inr res => res
    | Sum.inl st1 => fat_mmap_loop d um_vaddr off_begin off_end rest st1

/-- `fat_mmap(um, pdir, flags)` (lines 96-183).  The `pdir` argument is the
Page Mapper state `pm`.  Entry guards in source order: missing mmap
capability → `-ENODEV`; directory handle → `-EACCES`;
`flags & VFS_MM_DONT_MMAP` → immediate success; otherwise run the cluster
walk starting at the file's first cluster with `off = 0`,
`off_begin = um->off`, `off_end = um->off + um->len`. -/
def fat_mmap (d : fat_fs_device_data) (um : user_mapping) (flags : Nat)
    (pm : PageMapperState) : MmapResult :=
  if d.mmap_support = false then
    ⟨-ENODEV, pm, [], [], true, 0⟩
  else if um.h.e.directory then
    ⟨-EACCES, pm, [], [], true, 0⟩
  else if flags &&& VFS_MM_DONT_MMAP ≠ 0 then
    ⟨0, pm, [], [], true, 0⟩
  else
    fat_mmap_loop d um.vaddr um.off (um.off + um.len) um.h.e.cluster_chain
      ⟨0, um.vaddr, 0, 0, pm, [], [], true⟩

/-- The environment `fat_ramdisk_prepare_for_mmap` observes through its
collaborators: the device's cluster size, whether
`system_mmap_check_for_extra_ramdisk_region(hdr)` holds, whether
`fat_is_first_data_sector_aligned(hdr, PAGE_SIZE)` holds, the value of
`fat_calculate_used_bytes(hdr)`, and the raw bytes of the image. -/
structure fat_ramdisk_env where
  cluster_size : Nat
  extra_region : Bool
  first_data_sector_aligned : Bool
  used_bytes : Nat
  image : List Nat
deriving Repr, DecidableEq

/-- Observable outcome of `fat_ramdisk_prepare_for_mmap`: return value; the
size passed to `retain_pageframes_mapped_at` when that call was made
(`none` when it was not reached); the image bytes after the call; whether
the `set_page_rw` make-writable/realign/make-readonly sequence ran. -/
structure PrepResult where
  ret : Int
  retained : Option Nat
  image : List Nat
  rw_toggled : Bool
deriving Repr, DecidableEq

/-- `fat_ramdisk_prepare_for_mmap(d, rd_size)` (lines 14-94).
`IS_PAGE_ALIGNED(x)` is `x % PAGE_SIZE == 0`.  The in-place realignment
`fat_align_first_data_sector` (external FAT code) is abstracted as the
image transformation `alignFn`.  `VERIFY(rd_size >= used)` holds on every
path exercised by the claims, so truncated subtraction in the headroom
check coincides with C. -/
def fat_ramdisk_prepare_for_mmap (env : fat_ramdisk_env) (rd_size : Nat)
    (alignFn : List Nat → List Nat) : PrepResult :=
  let rd1 := if env.extra_region then rd_size + PAGE_SIZE else rd_size
  if env.cluster_size < PAGE_SIZE ∨ ¬ env.cluster_size % PAGE_SIZE = 0 then
    -- "We cannot support our implementation of mmap in this case"
    ⟨-1, none, env.image, false⟩
  else if env.first_data_sector_aligned then
    -- retain_pageframes_mapped_at ran; "Typical case: nothing to do"
    ⟨0, some rd1, env.image, false⟩
  else if rd1 - env.used_bytes < PAGE_SIZE then
    -- "WARNING: [fat ramdisk] cannot align first data sector"
    ⟨-1, some rd1, env.image, false⟩
  else
    ⟨0, some rd1, alignFn env.image, true⟩

/-- Modelled from the spec: the mount-time caller of
`fat_ramdisk_prepare_for_mmap` (outside the repository slice) enables
`d->mmap_support` for the mount exactly when the preparation step returns
success; on failure the capability is permanently disabled
("if not, permanently disable mmap-capability for this mount"). -/
def mmap_support_after_prepare (env : fat_ramdisk_env) (rd_size : Nat)
    (alignFn : List Nat → List Nat) : Bool :=
  (fat_ramdisk_prepare_for_mmap env rd_size alignFn).ret == 0

/-! ### Helper lemmas about the Page Mapper model -/

theorem map_pages_fst (pm : PageMapperState) (vaddr pa pg_count : Nat) :
    (map_pages pm vaddr pa pg_count).1 = min pg_count pm.pool := rfl

theorem map_pages_snd_mapped (pm : PageMapperState) (vaddr pa pg_count : Nat) :
    (map_pages pm vaddr pa pg_count).2.mapped
      = pm.mapped ++
          (List.range (min pg_count pm.pool)).map
            (fun i => (vaddr + i * PAGE_SIZE, pa + i * PAGE_SIZE)) := rfl

/-! ### Provenance of the `map_pages` trace

Every `map_pages` invocation recorded by one loop step either was already in
the trace, or is the single new call issued for the cluster the step
visited; the new call's data pointer is always the very start of that
cluster's data (the `data += off_begin - off` adjustment reads `off` after
`off = off_begin`, so it adds 0). -/

theorem fat_mmap_step_inl_calls (d : fat_fs_device_data)
    (uva ob oe clu : Nat) (st st1 : LoopState)
    (h : fat_mmap_step d uva ob oe clu st = Sum.inl st1) :
    ∀ c ∈ st1.calls,
      c ∈ st.calls ∨ (c.clu = clu ∧ c.data = fat_get_pointer_to_cluster_data d clu) := by
  unfold fat_mmap_step at h
  by_cases h1 : oe ≤ st.off
  · simp [h1] at h
  · by_cases h2 : ob < st.off + d.cluster_size
    · by_cases h3 : st.off < ob
      · simp only [h1, h2, h3, if_true, if_false, if_pos, if_neg, not_false_iff] at h
        split at h
        · cases h
        · cases h
          intro c hc
          rcases List.mem_append.mp hc with hold | hnew
          · exact Or.inl hold
          · rcases List.mem_singleton.mp hnew with rfl
            exact Or.inr ⟨rfl, by simp⟩
      · simp only [h1, h2, h3, if_true, if_false, if_pos, if_neg, not_false_iff] at h
        split at h
        · cases h
        · cases h
          intro c hc
          rcases List.mem_append.mp hc with hold | hnew
          · exact Or.inl hold
          · rcases List.mem_singleton.mp hnew with rfl
            exact Or.inr ⟨rfl, rfl⟩
    · simp only [h1, h2, if_true, if_false, if_pos, if_neg, not_false_iff] at h
      cases h
      intro c hc
      exact Or.inl hc

theorem fat_mmap_step_inr_calls (d : fat_fs_device_data)
    (uva ob oe clu : Nat) (st : LoopState) (res : MmapResult)
    (h : fat_mmap_step d uva ob oe clu st = Sum.inr res) :
    ∀ c ∈ res.calls,
      c ∈ st.calls ∨ (c.clu = clu ∧ c.data = fat_get_pointer_to_cluster_data d clu) := by
  unfold fat_mmap_step at h
  by_cases h1 : oe ≤ st.off
  · simp only [h1, if_true] at h
    cases h
    intro c hc
    exact Or.inl hc
  · by_cases h2 : ob < st.off + d.cluster_size
    · by_cases h3 : st.off < ob
      · simp only [h1, h2, h3, if_true, if_false, if_pos, if_neg, not_false_iff] at h
        split at h
        · cases h
          intro c hc
          rcases List.mem_append.mp hc with hold | hnew
          · exact Or.inl hold
          · rcases List.mem_singleton.mp hnew with rfl
            exact Or.inr ⟨rfl, by simp⟩
        · cases h
      · simp only [h1, h2, h3, if_true, if_false, if_pos, if_neg, not_false_iff] at h
        split at h
        · cases h
          intro c hc
          rcases List.mem_append.mp hc with hold | hnew
          · exact Or.inl hold
          · rcases List.mem_singleton.mp hnew with rfl
            exact Or.inr ⟨rfl, rfl⟩
        · cases h
    · simp only [h1, h2, if_true, if_false, if_pos, if_neg, not_false_iff] at h
      cases h

theorem fat_mmap_loop_calls_data (d : fat_fs_device_data) :
    ∀ (chain : List Nat) (uva ob oe : Nat) (st : LoopState),
      (∀ c ∈ st.calls, c.data = fat_get_pointer_to_cluster_data d c.clu) →
      ∀ c ∈ (fat_mmap_loop d uva ob oe chain st).calls,
        c.data = fat_get_pointer_to_cluster_data d c.clu := by
  intro chain
  induction chain with
  | nil =>
    intro uva ob oe st h c hc
    exact h c hc
  | cons clu rest ih =>
    intro uva ob oe st h c hc
    rcases hstep : fat_mmap_step d uva ob oe clu st with st1 | res
    · rw [fat_mmap_loop, hstep] at hc
      refine ih uva ob oe st1 ?_ c hc
      intro c1 hc1
      rcases fat_mmap_step_inl_calls d uva ob oe clu st st1 hstep c1 hc1 with hold | ⟨hclu, hdata⟩
      · exact h c1 hold
      · rw [hdata, hclu]
    · rw [fat_mmap_loop, hstep] at hc
      rcases fat_mmap_step_inr_calls d uva ob oe clu st res hstep c hc with hold | ⟨hclu, hdata⟩
      · exact h c hold
      · rw [hdata, hclu]

/-! ### Claim theorems: entry guards and data pointers -/

/-- C2: `fat_mmap` checks its entry guards in order with first match
winning: a mount without mmap capability fails `-ENODEV` (whatever the
handle or flags are); with the capability, a directory handle fails
`-EACCES` (whatever the flags are); with the capability and a regular
file, a set `VFS_MM_DONT_MMAP` flag returns success immediately.  In all
three cases the Page Mapper trace is empty and its state untouched, and
zero pages are mapped. -/
theorem fat_mmap_entry_guards (cs dr : Nat) (e : fat_entry) (chain : List Nat)
    (va len off flags : Nat) (pm : PageMapperState) :
    fat_mmap ⟨false, cs, dr⟩ ⟨⟨e⟩, va, len, off⟩ flags pm
        = ⟨-ENODEV, pm, [], [], true, 0⟩
    ∧ fat_mmap ⟨true, cs, dr⟩ ⟨⟨⟨true, chain⟩⟩, va, len, off⟩ flags pm
        = ⟨-EACCES, pm, [], [], true, 0⟩
    ∧ (flags &&& VFS_MM_DONT_MMAP ≠ 0 →
        fat_mmap ⟨true, cs, dr⟩ ⟨⟨⟨false, chain⟩⟩, va, len, off⟩ flags pm
          = ⟨0, pm, [], [], true, 0⟩) := by
  refine ⟨?_, ?_, ?_⟩
  · simp [fat_mmap]
  · simp [fat_mmap]
  · intro hfl
    simp [fat_mmap, hfl]

/-- C2 witness: the guards evaluated at a concrete mount, handle and
descriptor (flags with the reserve-only bit set). -/
theorem fat_mmap_entry_guards_witness :
    (1 : Nat) &&& VFS_MM_DONT_MMAP ≠ 0
    ∧ fat_mmap ⟨true, 4096, 1048576⟩ ⟨⟨⟨false, [2, 3]⟩⟩, 409600, 8192, 0⟩ 1 ⟨5, []⟩
        = ⟨0, ⟨5, []⟩, [], [], true, 0⟩ :=
  ⟨by decide,
   (fat_mmap_entry_guards 4096 1048576 ⟨false, [2, 3]⟩ [2, 3] 409600 8192 0 1
      ⟨5, []⟩).2.2 (by decide)⟩

/-- C10: every `map_pages` invocation issued by `fat_mmap` passes the very
start of the visited cluster's data as the physical address: in the
clipping branch the pointer adjustment `data += off_begin - off` is
computed after `off = off_begin`, so it always adds zero and the data
pointer is never advanced to an interior offset of the cluster. -/
theorem fat_mmap_data_pointer_never_advanced (d : fat_fs_device_data)
    (um : user_mapping) (flags : Nat) (pm : PageMapperState) :
    ∀ c ∈ (fat_mmap d um flags pm).calls,
      c.data = fat_get_pointer_to_cluster_data d c.clu := by
  unfold fat_mmap
  split_ifs with h1 h2 h3
  · intro c hc; simp at hc
  · intro c hc; simp at hc
  · intro c hc; simp at hc
  · exact fat_mmap_loop_calls_data d um.h.e.cluster_chain um.vaddr um.off
      (um.off + um.len) ⟨0, um.vaddr, 0, 0, pm, [], [], true⟩ (by intro c hc; simp at hc)

/-- C10 witness: in the run with cluster size 4096, chain `[2, 3, 4]` and
requested region `[2000, 10000)` — where the clipping branch is taken on
the first cluster — the first recorded invocation passes exactly the start
of cluster 2's data. -/
theorem fat_mmap_data_pointer_never_advanced_witness :
    (⟨0, 2, 409600, 1048576, 0, 0⟩ : MapCall)
        ∈ (fat_mmap ⟨true, 4096, 1048576⟩ ⟨⟨⟨false, [2, 3, 4]⟩⟩, 409600, 8000, 2000⟩ 0
            ⟨100, []⟩).calls
    ∧ (⟨0, 2, 409600, 1048576, 0, 0⟩ : MapCall).data
        = fat_get_pointer_to_cluster_data ⟨true, 4096, 1048576⟩
            (⟨0, 2, 409600, 1048576, 0, 0⟩ : MapCall).clu :=
  ⟨by decide,
   fat_mmap_data_pointer_never_advanced ⟨true, 4096, 1048576⟩
     ⟨⟨⟨false, [2, 3, 4]⟩⟩, 409600, 8000, 2000⟩ 0 ⟨100, []⟩
     ⟨0, 2, 409600, 1048576, 0, 0⟩ (by decide)⟩

/-! ### Claim theorems: the `[2000,10000)` three-cluster scenario -/

/-- C4 counterexample: with cluster size = page size = 4096, a file on
clusters `[2, 3, 4]` (file bytes `[0, 12288)`), ample pageframes, and a map
request for region `[2000, 10000)`, `fat_mmap` does NOT map the three pages
covering file bytes `[0, 12288)`: it establishes exactly one mapping — so
the page covering file byte 0 (cluster 2's data, address 1048576) is not
mapped. -/
theorem fat_mmap_unaligned_request_cex :
    (fat_mmap ⟨true, 4096, 1048576⟩ ⟨⟨⟨false, [2, 3, 4]⟩⟩, 409600, 8000, 2000⟩ 0
        ⟨100, []⟩).ret = 0
    ∧ (fat_mmap ⟨true, 4096, 1048576⟩ ⟨⟨⟨false, [2, 3, 4]⟩⟩, 409600, 8000, 2000⟩ 0
        ⟨100, []⟩).pm.mapped.length = 1
    ∧ ¬ (fat_mmap ⟨true, 4096, 1048576⟩ ⟨⟨⟨false, [2, 3, 4]⟩⟩, 409600, 8000, 2000⟩ 0
        ⟨100, []⟩).pm.mapped.length = 3
    ∧ (409600, 1048576)
        ∉ (fat_mmap ⟨true, 4096, 1048576⟩ ⟨⟨⟨false, [2, 3, 4]⟩⟩, 409600, 8000, 2000⟩ 0
            ⟨100, []⟩).pm.mapped := by
  decide

/-- C4 (amended): with cluster size = page size = 4096, a file on clusters
`[2, 3, 4]` covering file bytes `[0, 12288)`, and a map request for region
`[2000, 10000)`, `fat_mmap` returns success having mapped exactly one page,
at the requested virtual address, backed by the start of the second
cluster's data (file bytes `[4096, 8192)`, address 1052672); the Page
Mapper is invoked once per cluster (with page counts 0, 1, 0), no cluster
is taken by the skip branch, and the in-code offset-alignment assertion is
violated during the call. -/
theorem fat_mmap_unaligned_request_actual :
    fat_mmap ⟨true, 4096, 1048576⟩ ⟨⟨⟨false, [2, 3, 4]⟩⟩, 409600, 8000, 2000⟩ 0 ⟨100, []⟩
      = ⟨0, ⟨99, [(409600, 1052672)]⟩,
         [⟨0, 2, 409600, 1048576, 0, 0⟩,
          ⟨1, 3, 409600, 1052672, 1, 1⟩,
          ⟨2, 4, 413696, 1056768, 0, 0⟩],
         [], false, 1⟩ := by
  decide

/-! ### Claim theorems: preparation step -/

/-- C3: when the mount's cluster size is smaller than the page size or not
an exact multiple of it, `fat_ramdisk_prepare_for_mmap` fails without
touching the image or attempting the writable/realign repair sequence, the
mmap capability stays disabled, and every subsequent `fat_mmap` call on a
mount with that (disabled) capability fails `-ENODEV` with an empty Page
Mapper trace. -/
theorem prepare_bad_cluster_size_disables_mmap (env : fat_ramdisk_env)
    (rd_size : Nat) (alignFn : List Nat → List Nat)
    (h : env.cluster_size < PAGE_SIZE ∨ env.cluster_size % PAGE_SIZE ≠ 0) :
    (fat_ramdisk_prepare_for_mmap env rd_size alignFn).ret = -1
    ∧ (fat_ramdisk_prepare_for_mmap env rd_size alignFn).image = env.image
    ∧ (fat_ramdisk_prepare_for_mmap env rd_size alignFn).rw_toggled = false
    ∧ mmap_support_after_prepare env rd_size alignFn = false
    ∧ ∀ (cs dr : Nat) (e : fat_entry) (va len off flags : Nat) (pm : PageMapperState),
        fat_mmap ⟨mmap_support_after_prepare env rd_size alignFn, cs, dr⟩
            ⟨⟨e⟩, va, len, off⟩ flags pm
          = ⟨-ENODEV, pm, [], [], true, 0⟩ := by
  have hcond : env.cluster_size < PAGE_SIZE ∨ ¬ env.cluster_size % PAGE_SIZE = 0 := h
  have hprep : fat_ramdisk_prepare_for_mmap env rd_size alignFn
      = ⟨-1, none, env.image, false⟩ := by
    unfold fat_ramdisk_prepare_for_mmap
    simp [hcond]
  have hsup : mmap_support_after_prepare env rd_size alignFn = false := by
    unfold mmap_support_after_prepare
    rw [hprep]
    rfl
  refine ⟨by rw [hprep], by rw [hprep], by rw [hprep], hsup, ?_⟩
  intro cs dr e va len off flags pm
  rw [hsup]
  simp [fat_mmap]

/-- C3 witness: a mount with 512-byte clusters fails preparation, and a
subsequent map call on it fails `-ENODEV` without reaching the Page
Mapper. -/
theorem prepare_bad_cluster_size_disables_mmap_witness :
    ((⟨512, false, true, 0, [7]⟩ : fat_ramdisk_env).cluster_size < PAGE_SIZE
      ∨ (⟨512, false, true, 0, [7]⟩ : fat_ramdisk_env).cluster_size % PAGE_SIZE ≠ 0)
    ∧ (fat_ramdisk_prepare_for_mmap ⟨512, false, true, 0, [7]⟩ 8192 id).ret = -1
    ∧ fat_mmap ⟨mmap_support_after_prepare ⟨512, false, true, 0, [7]⟩ 8192 id, 512, 0⟩
        ⟨⟨⟨false, [2]⟩⟩, 409600, 4096, 0⟩ 0 ⟨9, []⟩
      = ⟨-ENODEV, ⟨9, []⟩, [], [], true, 0⟩ :=
  ⟨by decide,
   (prepare_bad_cluster_size_disables_mmap ⟨512, false, true, 0, [7]⟩ 8192 id
      (by decide)).1,
   (prepare_bad_cluster_size_disables_mmap ⟨512, false, true, 0, [7]⟩ 8192 id
      (by decide)).2.2.2.2 512 0 ⟨false, [2]⟩ 409600 4096 0 0 ⟨9, []⟩⟩

/-- C6: on a misaligned image whose used bytes equal the full ramdisk
region size — so with no extra 4k region after the ramdisk there is zero
headroom — `fat_ramdisk_prepare_for_mmap` fails and the mmap capability
stays disabled. -/
theorem prepare_zero_headroom_fails (env : fat_ramdisk_env)
    (alignFn : List Nat → List Nat)
    (hx : env.extra_region = false)
    (ha : env.first_data_sector_aligned = false) :
    (fat_ramdisk_prepare_for_mmap env env.used_bytes alignFn).ret = -1
    ∧ mmap_support_after_prepare env env.used_bytes alignFn = false := by
  have hprep : (fat_ramdisk_prepare_for_mmap env env.used_bytes alignFn).ret = -1 := by
    unfold fat_ramdisk_prepare_for_mmap
    by_cases hcs : env.cluster_size < PAGE_SIZE ∨ ¬ env.cluster_size % PAGE_SIZE = 0
    · simp [hcs]
    · simp only [hx, hcs, ha, if_false, Bool.false_eq_true, Nat.sub_self]
      simp [PAGE_SIZE]
  refine ⟨hprep, ?_⟩
  unfold mmap_support_after_prepare
  rw [hprep]
  rfl

/-- C6 witness: a misaligned image using all 8192 bytes of its 8192-byte
region, with no extra region after it. -/
theorem prepare_zero_headroom_fails_witness :
    (⟨4096, false, false, 8192, [7]⟩ : fat_ramdisk_env).extra_region = false
    ∧ (⟨4096, false, false, 8192, [7]⟩ : fat_ramdisk_env).first_data_sector_aligned = false
    ∧ (fat_ramdisk_prepare_for_mmap ⟨4096, false, false, 8192, [7]⟩ 8192 id).ret = -1
    ∧ mmap_support_after_prepare ⟨4096, false, false, 8192, [7]⟩ 8192 id = false :=
  ⟨by decide, by decide,
   (prepare_zero_headroom_fails ⟨4096, false, false, 8192, [7]⟩ id rfl rfl).1,
   (prepare_zero_headroom_fails ⟨4096, false, false, 8192, [7]⟩ id rfl rfl).2⟩

/-- C8: when the cluster-size precondition holds and the first data sector
is already page aligned, `fat_ramdisk_prepare_for_mmap` only pins the
ramdisk's pageframes (over the region, grown by one page when the extra
region survived) and returns success: the image bytes are untouched and
the writable/realign sequence never runs. -/
theorem prepare_aligned_pins_only (env : fat_ramdisk_env) (rd_size : Nat)
    (alignFn : List Nat → List Nat)
    (hge : PAGE_SIZE ≤ env.cluster_size)
    (hmul : env.cluster_size % PAGE_SIZE = 0)
    (ha : env.first_data_sector_aligned = true) :
    fat_ramdisk_prepare_for_mmap env rd_size alignFn
      = ⟨0, some (if env.extra_region then rd_size + PAGE_SIZE else rd_size),
         env.image, false⟩ := by
  unfold fat_ramdisk_prepare_for_mmap
  have hcs : ¬ (env.cluster_size < PAGE_SIZE ∨ ¬ env.cluster_size % PAGE_SIZE = 0) := by
    push_neg
    exact ⟨hge, hmul⟩
  simp [hcs, ha]

/-- C8 witness: an aligned mount with 4096-byte clusters and the extra
region present: preparation pins `rd_size + PAGE_SIZE` bytes and changes
nothing else. -/
theorem prepare_aligned_pins_only_witness :
    PAGE_SIZE ≤ (⟨4096, true, true, 100, [7, 8]⟩ : fat_ramdisk_env).cluster_size
    ∧ (⟨4096, true, true, 100, [7, 8]⟩ : fat_ramdisk_env).cluster_size % PAGE_SIZE = 0
    ∧ fat_ramdisk_prepare_for_mmap ⟨4096, true, true, 100, [7, 8]⟩ 8192 id
        = ⟨0, some 12288, [7, 8], false⟩ :=
  ⟨by decide, by decide, by
    have h := prepare_aligned_pins_only ⟨4096, true, true, 100, [7, 8]⟩ 8192 id
      (by decide) (by decide) rfl
    simpa using h⟩

/-- C9: whenever the cluster-size precondition holds,
`fat_ramdisk_prepare_for_mmap` pins the ramdisk's pageframes before the
alignment and headroom checks, so the pageframes are retained even on the
failure path where the image is misaligned and lacks the page of headroom
needed to repair it: that failure is not state-free. -/
theorem prepare_retains_before_checks (env : fat_ramdisk_env) (rd_size : Nat)
    (alignFn : List Nat → List Nat)
    (hge : PAGE_SIZE ≤ env.cluster_size)
    (hmul : env.cluster_size % PAGE_SIZE = 0) :
    (fat_ramdisk_prepare_for_mmap env rd_size alignFn).retained
        = some (if env.extra_region then rd_size + PAGE_SIZE else rd_size)
    ∧ (env.first_data_sector_aligned = false →
        (if env.extra_region then rd_size + PAGE_SIZE else rd_size) - env.used_bytes
            < PAGE_SIZE →
        (fat_ramdisk_prepare_for_mmap env rd_size alignFn).ret = -1) := by
  have hcs : ¬ (env.cluster_size < PAGE_SIZE ∨ ¬ env.cluster_size % PAGE_SIZE = 0) := by
    push_neg
    exact ⟨hge, hmul⟩
  constructor
  · unfold fat_ramdisk_prepare_for_mmap
    by_cases ha : env.first_data_sector_aligned
    · simp [hcs, ha]
    · by_cases hh : (if env.extra_region then rd_size + PAGE_SIZE else rd_size)
          - env.used_bytes < PAGE_SIZE
      · simp [hcs, ha, hh]
      · simp [hcs, ha, hh]
  · intro ha hh
    unfold fat_ramdisk_prepare_for_mmap
    simp [hcs, ha, hh]

/-- C9 witness: a misaligned mount whose region has zero headroom: the
preparation fails with `-1`, yet the pageframes were retained. -/
theorem prepare_retains_before_checks_witness :
    PAGE_SIZE ≤ (⟨4096, false, false, 8192, [7]⟩ : fat_ramdisk_env).cluster_size
    ∧ (fat_ramdisk_prepare_for_mmap ⟨4096, false, false, 8192, [7]⟩ 8192 id).retained
        = some 8192
    ∧ (fat_ramdisk_prepare_for_mmap ⟨4096, false, false, 8192, [7]⟩ 8192 id).ret = -1 :=
  ⟨by decide,
   by
    have h := (prepare_retains_before_checks ⟨4096, false, false, 8192, [7]⟩ 8192 id
      (by decide) (by decide)).1
    simpa using h,
   (prepare_retains_before_checks ⟨4096, false, false, 8192, [7]⟩ 8192 id
      (by decide) (by decide)).2 rfl (by decide)⟩

/-! ### Claim theorem: the offset-alignment assertion (C7) -/

/-- C7: the in-code assertion `ASSERT((off % d->cluster_size) == 0)` at the
end of the mapping branch does NOT hold for every reachable loop state.
Failing input: cluster size 8192 (twice the page size), a one-cluster file,
requested region `[0, 4096)` — page-aligned, ending mid-cluster — and ample
pageframes.  The call succeeds mapping one page, but after the mapping
branch `off = 4096`, and `4096 % 8192 ≠ 0`: the recorded assertion flag is
false. -/
theorem fat_mmap_offset_alignment_assert_fails :
    (fat_mmap ⟨true, 8192, 1048576⟩ ⟨⟨⟨false, [2]⟩⟩, 32768, 4096, 0⟩ 0
        ⟨100, []⟩).assertsOk = false
    ∧ (fat_mmap ⟨true, 8192, 1048576⟩ ⟨⟨⟨false, [2]⟩⟩, 32768, 4096, 0⟩ 0
        ⟨100, []⟩).ret = 0
    ∧ (fat_mmap ⟨true, 8192, 1048576⟩ ⟨⟨⟨false, [2]⟩⟩, 32768, 4096, 0⟩ 0
        ⟨100, []⟩).tot_mapped_cnt = 1 := by
  decide

/-! ### Claim theorems: rollback on Page Mapper shortfall (C1) -/

/-- C1 counterexample: cluster size 8192, a one-cluster file, request
`[0, 8192)` (two pages), and a Page Mapper that can still map exactly one
page.  The single `map_pages` invocation maps 1 of 2 requested pages, so
`fat_mmap` rolls back `tot_mapped_cnt = 0` pages and returns `-ENOMEM` —
leaving the one page mapped by the failing invocation still mapped in the
address space, contradicting "no page mapped by that call remains
mapped". -/
theorem fat_mmap_rollback_leaves_shortfall_pages_cex :
    (fat_mmap ⟨true, 8192, 1048576⟩ ⟨⟨⟨false, [2]⟩⟩, 32768, 8192, 0⟩ 0
        ⟨1, []⟩).ret = -ENOMEM
    ∧ (fat_mmap ⟨true, 8192, 1048576⟩ ⟨⟨⟨false, [2]⟩⟩, 32768, 8192, 0⟩ 0
        ⟨1, []⟩).pm.mapped = [(32768, 1048576)]
    ∧ ¬ (fat_mmap ⟨true, 8192, 1048576⟩ ⟨⟨⟨false, [2]⟩⟩, 32768, 8192, 0⟩ 0
        ⟨1, []⟩).pm.mapped = [] := by
  decide

theorem page_size_pos : 0 < PAGE_SIZE := by decide

theorem shiftl_page (n : Nat) : n <<< PAGE_SHIFT = n * PAGE_SIZE := by
  rw [Nat.shiftLeft_eq]
  rfl

/-- Loop invariant for the rollback analysis: the running `vaddr` always
sits exactly `tot_mapped_cnt` pages above `um->vaddr`, and every mapping
established so far by this call lies in `[um->vaddr, vaddr)`. -/
def RollbackInv (uva : Nat) (st : LoopState) : Prop :=
  st.vaddr = uva + st.tot * PAGE_SIZE
  ∧ ∀ p ∈ st.pm.mapped, uva ≤ p.1 ∧ p.1 < uva + st.tot * PAGE_SIZE

theorem fat_mmap_step_inl_rollback (d : fat_fs_device_data)
    (uva ob oe clu : Nat) (st st1 : LoopState)
    (h : fat_mmap_step d uva ob oe clu st = Sum.inl st1)
    (hinv : RollbackInv uva st) : RollbackInv uva st1 := by
  obtain ⟨hv, hm⟩ := hinv
  unfold fat_mmap_step at h
  by_cases h1 : oe ≤ st.off
  · simp [h1] at h
  · by_cases h2 : ob < st.off + d.cluster_size
    · by_cases h3 : st.off < ob
      · simp only [h1, h2, h3, if_true, if_false, if_pos, if_neg, not_false_iff] at h
        split at h
        · cases h
        · rename_i hcnt
          push_neg at hcnt
          rw [map_pages_fst] at hcnt
          cases h
          refine ⟨?_, ?_⟩
          · dsimp only
            rw [map_pages_fst, hcnt, shiftl_page, hv]
            ring
          · dsimp only
            intro p hp
            rw [map_pages_snd_mapped, List.mem_append] at hp
            rw [map_pages_fst, hcnt]
            rcases hp with hold | hnew
            · obtain ⟨hl, hr⟩ := hm p hold
              refine ⟨hl, Nat.lt_of_lt_of_le hr ?_⟩
              exact Nat.add_le_add_left (Nat.mul_le_mul_right _ (Nat.le_add_right _ _)) uva
            · rw [List.mem_map] at hnew
              obtain ⟨i, hi, hpi⟩ := hnew
              rw [List.mem_range, hcnt] at hi
              rw [← hpi]
              dsimp only
              simp only [PAGE_SIZE] at hv ⊢
              omega
      · simp only [h1, h2, h3, if_true, if_false, if_pos, if_neg, not_false_iff] at h
        split at h
        · cases h
        · rename_i hcnt
          push_neg at hcnt
          rw [map_pages_fst] at hcnt
          cases h
          refine ⟨?_, ?_⟩
          · dsimp only
            rw [map_pages_fst, hcnt, shiftl_page, hv]
            ring
          · dsimp only
            intro p hp
            rw [map_pages_snd_mapped, List.mem_append] at hp
            rw [map_pages_fst, hcnt]
            rcases hp with hold | hnew
            · obtain ⟨hl, hr⟩ := hm p hold
              refine ⟨hl, Nat.lt_of_lt_of_le hr ?_⟩
              exact Nat.add_le_add_left (Nat.mul_le_mul_right _ (Nat.le_add_right _ _)) uva
            · rw [List.mem_map] at hnew
              obtain ⟨i, hi, hpi⟩ := hnew
              rw [List.mem_range, hcnt] at hi
              rw [← hpi]
              dsimp only
              simp only [PAGE_SIZE] at hv ⊢
              omega
    · simp only [h1, h2, if_true, if_false, if_pos, if_neg, not_false_iff] at h
      cases h
      exact ⟨hv, hm⟩

theorem fat_mmap_step_inr_rollback (d : fat_fs_device_data)
    (uva ob oe clu : Nat) (st : LoopState) (res : MmapResult)
    (h : fat_mmap_step d uva ob oe clu st = Sum.inr res)
    (hinv : RollbackInv uva st) (hret : res.ret = -ENOMEM) :
    ∃ c, res.calls = st.calls ++ [c]
      ∧ c.mapped_cnt < c.pg_count
      ∧ c.vaddr = uva + res.tot_mapped_cnt * PAGE_SIZE
      ∧ res.pm.mapped
          = (List.range c.mapped_cnt).map
              (fun i => (c.vaddr + i * PAGE_SIZE, c.data + i * PAGE_SIZE)) := by
  obtain ⟨hv, hm⟩ := hinv
  unfold fat_mmap_step at h
  by_cases h1 : oe ≤ st.off
  · simp only [h1, if_true] at h
    cases h
    exact absurd hret (by norm_num [ENOMEM])
  · by_cases h2 : ob < st.off + d.cluster_size
    · by_cases h3 : st.off < ob
      · simp only [h1, h2, h3, if_true, if_false, if_pos, if_neg, not_false_iff] at h
        split at h
        · rename_i hcnt
          rw [map_pages_fst] at hcnt
          cases h
          refine ⟨⟨st.i, clu, st.vaddr, _, _, _⟩, rfl, ?_, hv, ?_⟩
          · dsimp only
            rw [map_pages_fst]
            exact Nat.lt_of_le_of_ne (Nat.min_le_left _ _) hcnt
          · dsimp only
            unfold unmap_pages_permissive
            dsimp only
            rw [map_pages_snd_mapped, List.filter_append]
            rw [List.filter_eq_nil_iff.mpr ?hnil, List.filter_eq_self.mpr ?hself]
            case hnil =>
              intro p hp
              obtain ⟨hl, hr⟩ := hm p hp
              simp only [Bool.or_eq_true, decide_eq_true_eq, not_or, not_lt, Nat.not_le]
              simp only [PAGE_SIZE] at hr ⊢
              omega
            case hself =>
              intro p hp
              rw [List.mem_map] at hp
              obtain ⟨i, _, hpi⟩ := hp
              simp only [Bool.or_eq_true, decide_eq_true_eq]
              right
              rw [← hpi]
              dsimp only
              rw [hv]
              exact Nat.le_add_right _ _
            rw [map_pages_fst]
            simp
        · cases h
      · simp only [h1, h2, h3, if_true, if_false, if_pos, if_neg, not_false_iff] at h
        split at h
        · rename_i hcnt
          rw [map_pages_fst] at hcnt
          cases h
          refine ⟨⟨st.i, clu, st.vaddr, _, _, _⟩, rfl, ?_, hv, ?_⟩
          · dsimp only
            rw [map_pages_fst]
            exact Nat.lt_of_le_of_ne (Nat.min_le_left _ _) hcnt
          · dsimp only
            unfold unmap_pages_permissive
            dsimp only
            rw [map_pages_snd_mapped, List.filter_append]
            rw [List.filter_eq_nil_iff.mpr ?hnil2, List.filter_eq_self.mpr ?hself2]
            case hnil2 =>
              intro p hp
              obtain ⟨hl, hr⟩ := hm p hp
              simp only [Bool.or_eq_true, decide_eq_true_eq, not_or, not_lt, Nat.not_le]
              simp only [PAGE_SIZE] at hr ⊢
              omega
            case hself2 =>
              intro p hp
              rw [List.mem_map] at hp
              obtain ⟨i, _, hpi⟩ := hp
              simp only [Bool.or_eq_true, decide_eq_true_eq]
              right
              rw [← hpi]
              dsimp only
              rw [hv]
              exact Nat.le_add_right _ _
            rw [map_pages_fst]
            simp
        · cases h
    · simp only [h1, h2, if_true, if_false, if_pos, if_neg, not_false_iff] at h
      cases h

theorem fat_mmap_loop_enomem (d : fat_fs_device_data) (uva ob oe : Nat) :
    ∀ (chain : List Nat) (st : LoopState), RollbackInv uva st →
      (fat_mmap_loop d uva ob oe chain st).ret = -ENOMEM →
      ∃ c, (fat_mmap_loop d uva ob oe chain st).calls.getLast? = some c
        ∧ c.mapped_cnt < c.pg_count
        ∧ c.vaddr = uva + (fat_mmap_loop d uva ob oe chain st).tot_mapped_cnt * PAGE_SIZE
        ∧ (fat_mmap_loop d uva ob oe chain st).pm.mapped
            = (List.range c.mapped_cnt).map
                (fun i => (c.vaddr + i * PAGE_SIZE, c.data + i * PAGE_SIZE)) := by
  intro chain
  induction chain with
  | nil =>
    intro st hinv hret
    exact absurd hret (by norm_num [fat_mmap_loop, ENOMEM])
  | cons clu rest ih =>
    intro st hinv hret
    rcases hstep : fat_mmap_step d uva ob oe clu st with st1 | res
    · rw [fat_mmap_loop, hstep] at hret ⊢
      exact ih st1 (fat_mmap_step_inl_rollback d uva ob oe clu st st1 hstep hinv) hret
    · rw [fat_mmap_loop, hstep] at hret ⊢
      obtain ⟨c, hcalls, hlt, hva, hmm⟩ :=
        fat_mmap_step_inr_rollback d uva ob oe clu st res hstep hinv hret
      refine ⟨c, ?_, hlt, hva, hmm⟩
      rw [hcalls]
      exact List.getLast?_concat _

/-- C1 (amended): when `fat_mmap` returns `-ENOMEM`, the permissive
rollback `unmap_pages_permissive(pdir, um->vaddr, tot_mapped_cnt, false)`
removes every page mapped by the previous, fully successful Page Mapper
invocations of the call — but not the pages mapped by the failing
invocation itself: the mappings from this call that remain are exactly the
`mapped_cnt` pages of the final, short invocation in the trace, which start
`tot_mapped_cnt` pages above `um->vaddr` (so when the failing invocation
mapped zero pages, nothing from the call remains mapped). -/
theorem fat_mmap_enomem_residual (d : fat_fs_device_data) (um : user_mapping)
    (flags pool : Nat)
    (hret : (fat_mmap d um flags ⟨pool, []⟩).ret = -ENOMEM) :
    ∃ c, (fat_mmap d um flags ⟨pool, []⟩).calls.getLast? = some c
      ∧ c.mapped_cnt < c.pg_count
      ∧ c.vaddr = um.vaddr + (fat_mmap d um flags ⟨pool, []⟩).tot_mapped_cnt * PAGE_SIZE
      ∧ (fat_mmap d um flags ⟨pool, []⟩).pm.mapped
          = (List.range c.mapped_cnt).map
              (fun i => (c.vaddr + i * PAGE_SIZE, c.data + i * PAGE_SIZE)) := by
  unfold fat_mmap at hret ⊢
  split_ifs at hret ⊢ with h1 h2 h3
  · exact absurd hret (by norm_num [ENODEV, ENOMEM])
  · exact absurd hret (by norm_num [EACCES, ENOMEM])
  · exact absurd hret (by norm_num [ENOMEM])
  · exact fat_mmap_loop_enomem d um.vaddr um.off (um.off + um.len) um.h.e.cluster_chain
      ⟨0, um.vaddr, 0, 0, ⟨pool, []⟩, [], [], true⟩
      ⟨by simp, by intro p hp; simp at hp⟩ hret

/-- C1 witness: the amended statement applied to the shortfall run
(cluster size 8192, one cluster, request `[0, 8192)`, one pageframe
left). -/
theorem fat_mmap_enomem_residual_witness :
    (fat_mmap ⟨true, 8192, 1048576⟩ ⟨⟨⟨false, [2]⟩⟩, 32768, 8192, 0⟩ 0 ⟨1, []⟩).ret
        = -ENOMEM
    ∧ ∃ c, (fat_mmap ⟨true, 8192, 1048576⟩ ⟨⟨⟨false, [2]⟩⟩, 32768, 8192, 0⟩ 0
              ⟨1, []⟩).calls.getLast? = some c
        ∧ c.mapped_cnt < c.pg_count
        ∧ c.vaddr = 32768
            + (fat_mmap ⟨true, 8192, 1048576⟩ ⟨⟨⟨false, [2]⟩⟩, 32768, 8192, 0⟩ 0
                ⟨1, []⟩).tot_mapped_cnt * PAGE_SIZE
        ∧ (fat_mmap ⟨true, 8192, 1048576⟩ ⟨⟨⟨false, [2]⟩⟩, 32768, 8192, 0⟩ 0
              ⟨1, []⟩).pm.mapped
            = (List.range c.mapped_cnt).map
                (fun i => (c.vaddr + i * PAGE_SIZE, c.data + i * PAGE_SIZE)) :=
  ⟨by decide,
   fat_mmap_enomem_residual ⟨true, 8192, 1048576⟩ ⟨⟨⟨false, [2]⟩⟩, 32768, 8192, 0⟩ 0 1
     (by decide)⟩

/-! ### Claim theorems: clusters outside the requested region (C5) -/

/-- C5 counterexample: cluster size = page size = 4096, chain `[2, 3, 4]`,
requested region `[2000, 3000)` (not page-aligned).  The clipping branch
sets `off = 2000`, after which `off` never returns to a cluster boundary;
the loop then reaches the third cluster (chain index 2, file bytes
`[8192, 12288)`, wholly at/after the region end 3000) and still passes it
to the Page Mapper — it is neither skipped nor cut off by the break. -/
theorem fat_mmap_out_of_range_cluster_passed_cex :
    ((fat_mmap ⟨true, 4096, 1048576⟩ ⟨⟨⟨false, [2, 3, 4]⟩⟩, 409600, 1000, 2000⟩ 0
        ⟨100, []⟩).calls.map MapCall.idx) = [0, 1, 2]
    ∧ (fat_mmap ⟨true, 4096, 1048576⟩ ⟨⟨⟨false, [2, 3, 4]⟩⟩, 409600, 1000, 2000⟩ 0
        ⟨100, []⟩).skipped = []
    ∧ (fat_mmap ⟨true, 4096, 1048576⟩ ⟨⟨⟨false, [2, 3, 4]⟩⟩, 409600, 1000, 2000⟩ 0
        ⟨100, []⟩).ret = 0
    ∧ 2000 + 1000 ≤ 2 * 4096 := by
  decide

theorem fat_mmap_step_inl_overlap (d : fat_fs_device_data) (uva ob oe clu : Nat)
    (st st1 : LoopState)
    (hob : ob % PAGE_SIZE = 0) (hoe : oe % PAGE_SIZE = 0)
    (hcs : d.cluster_size % PAGE_SIZE = 0) (hbe : ob ≤ oe)
    (hoff : st.off = st.i * d.cluster_size ∨ oe ≤ st.off)
    (h : fat_mmap_step d uva ob oe clu st = Sum.inl st1) :
    (st1.off = st1.i * d.cluster_size ∨ oe ≤ st1.off)
    ∧ ∀ c ∈ st1.calls,
        c ∈ st.calls
        ∨ (c.idx * d.cluster_size < oe ∧ ob < (c.idx + 1) * d.cluster_size) := by
  have hpow : (2 : Nat) ^ PAGE_SHIFT = PAGE_SIZE := by decide
  unfold fat_mmap_step at h
  by_cases h1 : oe ≤ st.off
  · simp [h1] at h
  · have hi : st.off = st.i * d.cluster_size := by
      rcases hoff with hi | hcontra
      · exact hi
      · exact absurd hcontra h1
    have h4off : st.off % PAGE_SIZE = 0 := by
      rw [hi, Nat.mul_mod, hcs, Nat.mul_zero, Nat.zero_mod]
    by_cases h2 : ob < st.off + d.cluster_size
    · by_cases h3 : st.off < ob
      · simp only [h1, h2, h3, if_true, if_false, if_pos, if_neg, not_false_iff] at h
        split at h
        · cases h
        · cases h
          refine ⟨?_, ?_⟩
          · dsimp only
            rw [add_one_mul, ← hi]
            rw [Nat.shiftRight_eq_div_pow, Nat.shiftLeft_eq, hpow]
            simp only [PAGE_SIZE] at hob hoe hcs h4off ⊢
            omega
          · dsimp only
            intro c hc
            rcases List.mem_append.mp hc with hold | hnew
            · exact Or.inl hold
            · rcases List.mem_singleton.mp hnew with rfl
              refine Or.inr ⟨?_, ?_⟩
              · dsimp only
                rw [← hi]
                omega
              · dsimp only
                rw [add_one_mul, ← hi]
                omega
      · simp only [h1, h2, h3, if_true, if_false, if_pos, if_neg, not_false_iff] at h
        split at h
        · cases h
        · cases h
          refine ⟨?_, ?_⟩
          · dsimp only
            rw [add_one_mul, ← hi]
            rw [Nat.shiftRight_eq_div_pow, Nat.shiftLeft_eq, hpow]
            simp only [PAGE_SIZE] at hob hoe hcs h4off ⊢
            omega
          · dsimp only
            intro c hc
            rcases List.mem_append.mp hc with hold | hnew
            · exact Or.inl hold
            · rcases List.mem_singleton.mp hnew with rfl
              refine Or.inr ⟨?_, ?_⟩
              · dsimp only
                rw [← hi]
                omega
              · dsimp only
                rw [add_one_mul, ← hi]
                omega
    · simp only [h1, h2, if_true, if_false, if_pos, if_neg, not_false_iff] at h
      cases h
      refine ⟨?_, ?_⟩
      · dsimp only
        left
        rw [add_one_mul, ← hi]
      · dsimp only
        intro c hc
        exact Or.inl hc

theorem fat_mmap_step_inr_overlap (d : fat_fs_device_data) (uva ob oe clu : Nat)
    (st : LoopState) (res : MmapResult)
    (hbe : ob ≤ oe)
    (hoff : st.off = st.i * d.cluster_size ∨ oe ≤ st.off)
    (h : fat_mmap_step d uva ob oe clu st = Sum.inr res) :
    ∀ c ∈ res.calls,
      c ∈ st.calls
      ∨ (c.idx * d.cluster_size < oe ∧ ob < (c.idx + 1) * d.cluster_size) := by
  unfold fat_mmap_step at h
  by_cases h1 : oe ≤ st.off
  · simp only [h1, if_true] at h
    cases h
    intro c hc
    exact Or.inl hc
  · have hi : st.off = st.i * d.cluster_size := by
      rcases hoff with hi | hcontra
      · exact hi
      · exact absurd hcontra h1
    by_cases h2 : ob < st.off + d.cluster_size
    · by_cases h3 : st.off < ob
      · simp only [h1, h2, h3, if_true, if_false, if_pos, if_neg, not_false_iff] at h
        split at h
        · cases h
          intro c hc
          rcases List.mem_append.mp hc with hold | hnew
          · exact Or.inl hold
          · rcases List.mem_singleton.mp hnew with rfl
            refine Or.inr ⟨?_, ?_⟩
            · dsimp only
              rw [← hi]
              omega
            · dsimp only
              rw [add_one_mul, ← hi]
              omega
        · cases h
      · simp only [h1, h2, h3, if_true, if_false, if_pos, if_neg, not_false_iff] at h
        split at h
        · cases h
          intro c hc
          rcases List.mem_append.mp hc with hold | hnew
          · exact Or.inl hold
          · rcases List.mem_singleton.mp hnew with rfl
            refine Or.inr ⟨?_, ?_⟩
            · dsimp only
              rw [← hi]
              omega
            · dsimp only
              rw [add_one_mul, ← hi]
              omega
        · cases h
    · simp only [h1, h2, if_true, if_false, if_pos, if_neg, not_false_iff] at h
      cases h

theorem fat_mmap_loop_overlap (d : fat_fs_device_data) (uva ob oe : Nat)
    (hob : ob % PAGE_SIZE = 0) (hoe : oe % PAGE_SIZE = 0)
    (hcs : d.cluster_size % PAGE_SIZE = 0) (hbe : ob ≤ oe) :
    ∀ (chain : List Nat) (st : LoopState),
      (st.off = st.i * d.cluster_size ∨ oe ≤ st.off) →
      (∀ c ∈ st.calls,
        c.idx * d.cluster_size < oe ∧ ob < (c.idx + 1) * d.cluster_size) →
      ∀ c ∈ (fat_mmap_loop d uva ob oe chain st).calls,
        c.idx * d.cluster_size < oe ∧ ob < (c.idx + 1) * d.cluster_size := by
  intro chain
  induction chain with
  | nil =>
    intro st _ hcalls c hc
    exact hcalls c hc
  | cons clu rest ih =>
    intro st hoff hcalls c hc
    rcases hstep : fat_mmap_step d uva ob oe clu st with st1 | res
    · rw [fat_mmap_loop, hstep] at hc
      obtain ⟨hoff1, hmem⟩ :=
        fat_mmap_step_inl_overlap d uva ob oe clu st st1 hob hoe hcs hbe hoff hstep
      refine ih st1 hoff1 ?_ c hc
      intro c1 hc1
      rcases hmem c1 hc1 with hold | hover
      · exact hcalls c1 hold
      · exact hover
    · rw [fat_mmap_loop, hstep] at hc
      rcases fat_mmap_step_inr_overlap d uva ob oe clu st res hbe hoff hstep c hc with
        hold | hover
      · exact hcalls c hold
      · exact hover

/-- C5 (amended): for every `fat_mmap` call whose requested offset and
length are page-aligned (the mmap contract under which the loop's running
offset stays on cluster boundaries), every cluster passed to the Page
Mapper overlaps the requested region `[off, off + len)`: the cluster at
chain index `i` covers file bytes `[i * cluster_size, (i+1) * cluster_size)`,
and every recorded invocation satisfies
`idx * cluster_size < off + len` and `off < (idx + 1) * cluster_size` — so
a cluster wholly before the region start or wholly at/after the region end
is never passed to the Page Mapper. -/
theorem fat_mmap_calls_overlap_region (d : fat_fs_device_data)
    (um : user_mapping) (flags : Nat) (pm : PageMapperState)
    (hoff : um.off % PAGE_SIZE = 0) (hlen : um.len % PAGE_SIZE = 0)
    (hcs : d.cluster_size % PAGE_SIZE = 0) :
    ∀ c ∈ (fat_mmap d um flags pm).calls,
      c.idx * d.cluster_size < um.off + um.len
      ∧ um.off < (c.idx + 1) * d.cluster_size := by
  have hoe : (um.off + um.len) % PAGE_SIZE = 0 := by
    simp only [PAGE_SIZE] at hoff hlen ⊢
    omega
  unfold fat_mmap
  split_ifs with h1 h2 h3
  · intro c hc; simp at hc
  · intro c hc; simp at hc
  · intro c hc; simp at hc
  · exact fat_mmap_loop_overlap d um.vaddr um.off (um.off + um.len) hoff hoe hcs
      (Nat.le_add_right _ _) um.h.e.cluster_chain
      ⟨0, um.vaddr, 0, 0, pm, [], [], true⟩
      (Or.inl (by simp)) (by intro c hc; simp at hc)

/-- C5 witness: the aligned request `[4096, 8192)` on the three-cluster
file: the single recorded invocation is for chain index 1, whose cluster
overlaps the region. -/
theorem fat_mmap_calls_overlap_region_witness :
    (4096 : Nat) % PAGE_SIZE = 0
    ∧ (⟨1, 3, 409600, 1052672, 1, 1⟩ : MapCall)
        ∈ (fat_mmap ⟨true, 4096, 1048576⟩ ⟨⟨⟨false, [2, 3, 4]⟩⟩, 409600, 4096, 4096⟩ 0
            ⟨100, []⟩).calls
    ∧ (1 * 4096 < 4096 + 4096 ∧ 4096 < (1 + 1) * 4096) :=
  ⟨by decide, by decide,
   fat_mmap_calls_overlap_region ⟨true, 4096, 1048576⟩
     ⟨⟨⟨false, [2, 3, 4]⟩⟩, 409600, 4096, 4096⟩ 0 ⟨100, []⟩
     (by decide) (by decide) (by decide)
     ⟨1, 3, 409600, 1052672, 1, 1⟩ (by decide)⟩

end Fat32MM
